import Mathlib

/-!
# Verification of the bevy_rx reactive dataflow core

A shallow embedding of the reactive graph engine of `bevy_rx`
(`src/lib.rs`, `src/calculated.rs`).  Graph nodes are ECS entities
(here: natural numbers allocated by a counter); each node carries a
`Reactive` record (current value plus subscriber list) and, for derived
nodes, a `CalcFunction` (fixed input list plus derivation function).
The host ECS world is embedded as a keyed map from entity id to these
optional records; the type-erased heterogeneous value store is embedded
by a value-type parameter `V` (a concrete scenario instantiates `V`
with a sum of the scenario's value types).  Machine-level `PartialEq`
on node values becomes `DecidableEq V`.

Fallible operations return `Option`: `none` models a Rust panic
(an `unwrap` failure) or, where noted, an out-of-fuel propagation.
The propagation worklist is a `List Nat` used exactly like the Rust
`Vec<Entity>` stack: elements are appended at the end and popped from
the end.
-/

namespace BevyRx

/-- The per-node reactive record (`Reactive<T>` in the source): the
current value and the ordered subscriber list.  Field names and uses
follow `calculated.rs` (`reactive.data`, `reactive.subscribers`). -/
structure Reactive (V : Type) where
  data : V
  subscribers : List Nat

/-- The derived-node recomputation component (`CalcFunction` in
`calculated.rs`): the fixed input dependency list and the derivation
function.  The source's typed input tuple and tuple-typed derive
function are embedded as a list of entity ids and a function on the
list of their (type-erased) values. -/
structure CalcFunction (V : Type) where
  inputs : List Nat
  deriveFn : List V → V

/-- The reactive world (the `World` inside `ReactiveContext`): a fresh
entity counter plus the per-entity `Reactive` and `CalcFunction`
records.  An entity id is spawned iff it is below `next`; a spawned
entity may lack either record (`none` also covers a record stored at a
different value type, which a typed `world.get::<Reactive<T>>` does not
see). -/
structure World (V : Type) where
  next : Nat
  reactive : Nat → Option (Reactive V)
  calcFns : Nat → Option (CalcFunction V)

namespace World

/-- The empty world backing `ReactiveContext::default()`. -/
def empty (V : Type) : World V :=
  { next := 0, reactive := fun _ => none, calcFns := fun _ => none }

/-- Store a `Reactive` record on an entity (insert or overwrite). -/
def setReactive (w : World V) (e : Nat) (r : Reactive V) : World V :=
  { w with reactive := fun i => if i = e then some r else w.reactive i }

/-- Store a `CalcFunction` record on an entity. -/
def setCalcFn (w : World V) (e : Nat) (cf : CalcFunction V) : World V :=
  { w with calcFns := fun i => if i = e then some cf else w.calcFns i }

end World

/-- Modelled from the spec (`signal.rs`/`observable.rs` are not in
`src/`): §3 calls `subscribers` an ordered sequence in which duplicates
are permissible, so `subscribe(reader)` appends the reader at the end
without deduplication. -/
def Reactive.subscribe (r : Reactive V) (reader : Nat) : Reactive V :=
  { r with subscribers := r.subscribers ++ [reader] }

/-- Pairwise distinctness of the requested entity ids, the condition
under which `World::get_many_entities_mut` grants simultaneous
exclusive access instead of erroring with aliased mutability. -/
def distinctB : List Nat → Bool
  | [] => true
  | i :: is => (!is.contains i) && distinctB is

/-- First loop of `CalcQuery::read_and_derive`: walk the input list in
order, registering `reader` as a subscriber of each input.  Stops at
the first input whose `Reactive` record is missing (the source's `?`
early return), keeping the subscriptions already made; the `Bool`
reports whether every input had a record. -/
def subscribeInputs (reader : Nat) : World V → List Nat → World V × Bool
  | w, [] => (w, true)
  | w, i :: is =>
    match w.reactive i with
    | none => (w, false)
    | some r => subscribeInputs reader (w.setReactive i (r.subscribe reader)) is

/-- Second loop of `CalcQuery::read_and_derive`: read each input's
current value; `none` if some record is missing. -/
def readInputs (w : World V) : List Nat → Option (List V)
  | [] => some []
  | i :: is =>
    match w.reactive i with
    | none => none
    | some r => (readInputs w is).map (r.data :: ·)

/-- `CalcQuery::read_and_derive` of `calculated.rs`.  The outer
`Option` is the `get_many_entities_mut(...).unwrap()`: `none` (a panic)
when an input id repeats or is not a spawned entity.  On success it
returns the world after subscription registration together with the
source's `Option<T>`: `some` the derivation's result, or `none` when
some input's `Reactive` record is missing (the `?` path), in which case
subscriptions made before the failure are retained. -/
def read_and_derive [DecidableEq V] (w : World V) (reader : Nat)
    (f : List V → V) (inputs : List Nat) : Option (World V × Option V) :=
  if distinctB inputs && inputs.all (fun i => i < w.next) then
    match subscribeInputs reader w inputs with
    | (w1, true) => some (w1, (readInputs w1 inputs).map f)
    | (w1, false) => some (w1, none)
  else
    none

/-- The closure built by `CalcFunction::new`, as run by
`CalcFunction::execute`: perform the dependency query; on a computed
value, diff it against the stored one — equal is an early return,
different replaces the value, detaches the whole subscriber list onto
the end of the shared stack and resets it to empty; a missing stored
record (first computation) inserts the value with no subscribers.
`none` models the query's panic. -/
def execute [DecidableEq V] (derived : Nat) (cf : CalcFunction V)
    (w : World V) (stack : List Nat) : Option (World V × List Nat) :=
  match read_and_derive w derived cf.deriveFn cf.inputs with
  | none => none
  | some (w1, none) => some (w1, stack)
  | some (w1, some v) =>
    match w1.reactive derived with
    | some r =>
      if r.data = v then
        some (w1, stack)
      else
        some (w1.setReactive derived ⟨v, []⟩, stack ++ r.subscribers)
    | none => some (w1.setReactive derived ⟨v, []⟩, stack)

/-- Pop the top of the worklist, i.e. the last element of the `Vec`. -/
def popTop : List Nat → Option (Nat × List Nat)
  | [] => none
  | [e] => some (e, [])
  | x :: y :: xs => (popTop (y :: xs)).map (fun p => (p.1, x :: p.2))

/-- Modelled from the spec (the propagation loop lives in the missing
`observable.rs`; §4.4 and the pseudocode comment in `calculated.rs`
describe it): while the worklist is non-empty, pop the most recently
enqueued id and run its `CalcFunction`, which may append further work.
`fuel` bounds the number of pops (the Rust loop has no such bound);
`none` is a panic inside a recomputation, a popped id without a
`CalcFunction` record, or exhausted fuel with pending work. -/
def propagate [DecidableEq V] : Nat → World V → List Nat → Option (World V)
  | 0, w, stack => if stack.isEmpty then some w else none
  | fuel + 1, w, stack =>
    match popTop stack with
    | none => some w
    | some (e, rest) =>
      match w.calcFns e with
      | none => none
      | some cf =>
        match execute e cf w rest with
        | none => none
        | some (w1, stack1) => propagate fuel w1 stack1

/-- Modelled from the spec (`ObservableData::send_signal` lives in the
missing `observable.rs`; §4.2 "write" and the pseudocode comment in
`calculated.rs` describe it): look up the signal's record; an equal
value returns without side effects; a different value is written, the
subscriber list is detached (reset to empty) and seeds the worklist,
and propagation runs to completion.  `none` is a missing record (the
read path panics on those) or a failure inside propagation. -/
def sendSignal [DecidableEq V] (fuel : Nat) (w : World V) (e : Nat)
    (v : V) : Option (World V) :=
  match w.reactive e with
  | none => none
  | some r =>
    if r.data = v then
      some w
    else
      propagate fuel (w.setReactive e ⟨v, []⟩) r.subscribers

namespace Signal

/-- Modelled from the spec (`signal.rs` is not in `src/`): §4.2
"create" stores the initial value under a fresh identifier with no
propagation (no subscribers yet).  Returns the new world and the
fresh entity id. -/
def new (w : World V) (v : V) : World V × Nat :=
  ({ w with next := w.next + 1 }.setReactive w.next ⟨v, []⟩, w.next)

end Signal

namespace Calc

/-- `Calc::new` of `calculated.rs`: spawn a fresh (empty) entity, build
its `CalcFunction`, execute it once against a fresh empty stack (the
resulting stack is discarded), then insert the `CalcFunction` on the
entity.  The first execution stores the derived value (no prior value
exists, so it always writes).  Returns the new world and the entity
id; `none` is a panic inside the first execution. -/
def new [DecidableEq V] (w : World V) (inputs : List Nat)
    (f : List V → V) : Option (World V × Nat) :=
  let entity := w.next
  let w1 : World V := { w with next := w.next + 1 }
  match execute entity ⟨inputs, f⟩ w1 [] with
  | none => none
  | some (w2, _stack) => some (w2.setCalcFn entity ⟨inputs, f⟩, entity)

end Calc

namespace ReactiveContext

/-- `ReactiveContext::read` of `lib.rs` (and `Calc::read` of
`calculated.rs`, which has the same body): fetch the node's record and
return its value; the source's `.unwrap()` panics when the record is
absent or stored at a different type, which is `none` here.  The world
is not mutated. -/
def read (w : World V) (e : Nat) : Option V :=
  (w.reactive e).map Reactive.data

end ReactiveContext

/-- The arities at which the source instantiates `CalcQuery`:
`all_tuples_with_size!(impl_CalcQuery, 1, 32, T, s)` generates one
tuple implementation per arity from 1 through 32. -/
def calcQueryArities : List Nat := List.range' 1 32

/-! ## General lemmas about the embedding -/

/-- `distinctB` decides pairwise distinctness (`List.Nodup`). -/
theorem distinctB_iff_nodup (is : List Nat) : distinctB is = true ↔ is.Nodup := by
  induction is with
  | nil => simp [distinctB]
  | cons i is ih =>
    simp [distinctB, ih, List.nodup_cons, List.elem_iff]

/-- Subscription registration does not touch the record of an entity
that is not among the inputs being subscribed to. -/
theorem subscribeInputs_reactive_of_not_mem (is : List Nat) (reader : Nat)
    (w : World V) (e : Nat) (he : e ∉ is) :
    ((subscribeInputs reader w is).1).reactive e = w.reactive e := by
  induction is generalizing w with
  | nil => rfl
  | cons i is ih =>
    have hi : e ≠ i := fun h => he (h ▸ List.mem_cons_self i is)
    have his : e ∉ is := fun h => he (List.mem_cons_of_mem i h)
    cases hr : w.reactive i with
    | none => simp [subscribeInputs, hr]
    | some r =>
      simp only [subscribeInputs, hr]
      rw [ih _ his]
      simp [World.setReactive, hi]

/-- After subscription registration over pairwise-distinct inputs, any
entity's record keeps its value, and its subscriber list is either
untouched or has exactly the reader appended once at the end. -/
theorem subscribeInputs_subscribers (is : List Nat) (reader : Nat)
    (w : World V) (hd : distinctB is = true) (e : Nat) (r2 : Reactive V)
    (h : ((subscribeInputs reader w is).1).reactive e = some r2) :
    ∃ r1, w.reactive e = some r1 ∧ r1.data = r2.data ∧
      (r2.subscribers = r1.subscribers ∨
        r2.subscribers = r1.subscribers ++ [reader]) := by
  induction is generalizing w with
  | nil => exact ⟨r2, h, rfl, Or.inl rfl⟩
  | cons i is ih =>
    simp only [distinctB, Bool.and_eq_true, Bool.not_eq_true'] at hd
    cases hr : w.reactive i with
    | none =>
      simp only [subscribeInputs, hr] at h
      exact ⟨r2, h, rfl, Or.inl rfl⟩
    | some r =>
      simp only [subscribeInputs, hr] at h
      by_cases hei : e = i
      · subst hei
        have hnotm : e ∉ is := by
          intro hm
          have h2 : is.contains e = true := List.elem_iff.mpr hm
          rw [hd.1] at h2
          exact absurd h2 (by simp)
        rw [subscribeInputs_reactive_of_not_mem is reader _ e hnotm] at h
        simp only [World.setReactive, if_pos rfl] at h
        cases h
        exact ⟨r, hr, rfl, Or.inr rfl⟩
      · obtain ⟨r1, hr1, hdata, hsubs⟩ := ih _ hd.2 h
        simp only [World.setReactive, if_neg hei] at hr1
        exact ⟨r1, hr1, hdata, hsubs⟩

/-- A successful dependency query leaves exactly the world produced by
the subscription pass. -/
theorem read_and_derive_world [DecidableEq V] {w w1 : World V}
    {reader : Nat} {f : List V → V} {inputs : List Nat}
    {res : Option V}
    (h : read_and_derive w reader f inputs = some (w1, res)) :
    w1 = (subscribeInputs reader w inputs).1 := by
  unfold read_and_derive at h
  split at h
  · rcases hs : subscribeInputs reader w inputs with ⟨ws, b⟩
    rw [hs] at h
    cases b <;> simp_all
  · exact absurd h (by simp)

/-- A successful dependency query implies its input list was pairwise
distinct (the aliasing gate passed). -/
theorem read_and_derive_distinct [DecidableEq V] {w : World V}
    {reader : Nat} {f : List V → V} {inputs : List Nat}
    {p : World V × Option V}
    (h : read_and_derive w reader f inputs = some p) :
    distinctB inputs = true := by
  unfold read_and_derive at h
  split at h
  · next hc => exact ((Bool.and_eq_true _ _).mp hc).1
  · exact absurd h (by simp)

/-- A dependency query over an input list with a repeated identifier
panics: the aliasing gate `distinctB` fails the
`get_many_entities_mut` request. -/
theorem read_and_derive_of_dup [DecidableEq V] (w : World V) (reader : Nat)
    (f : List V → V) (inputs : List Nat) (h : ¬ inputs.Nodup) :
    read_and_derive w reader f inputs = none := by
  have hb : distinctB inputs = false := by
    rw [← Bool.not_eq_true, distinctB_iff_nodup]
    exact h
  unfold read_and_derive
  simp [hb]

/-! ## Concrete worlds used by witnesses and counterexamples -/

/-- One `Bool` signal: entity 0 holds `false` with no subscribers. -/
def wOneSignal : World Bool := (Signal.new (World.empty Bool) false).1

/-- Entities 0 and 1 both hold `false` with no subscribers; entity 1
plays the role of a derived node whose recomputation is examined. -/
def wDiffPair : World Bool :=
  { next := 2
    reactive := fun i => if i ≤ 1 then some ⟨false, []⟩ else none
    calcFns := fun _ => none }

/-- The world `wDiffPair` after the derived node 1 re-registered its
subscription to its input 0. -/
def wDiffPairSub : World Bool := (subscribeInputs 1 wDiffPair [0]).1

/-- Input 0 holds `false`; derived node 1 holds `false` with subscriber
list `[7]`; recomputing 1 with a derivation returning `true` changes
its value. -/
def wChange : World Bool :=
  { next := 2
    reactive := fun i =>
      if i = 0 then some ⟨false, []⟩
      else if i = 1 then some ⟨false, [7]⟩ else none
    calcFns := fun _ => none }

/-- The world `wChange` after the derived node 1 re-registered its
subscription to its input 0. -/
def wChangeSub : World Bool := (subscribeInputs 1 wChange [0]).1

/-- Entity 0 is spawned but carries no `Reactive Bool` record (a record
absent or stored at a different value type); entity 1 is a derived node
holding `false`. -/
def wMissingRecord : World Bool :=
  { next := 2
    reactive := fun i => if i = 1 then some ⟨false, []⟩ else none
    calcFns := fun _ => none }

/-! ## Claims -/

/-- C1: for every node (signal via `sendSignal`, derived via
`execute`), when the newly written or computed value equals the current
one the operation is a no-op: `sendSignal` returns the world unchanged
(no write, no propagation), and a recomputation leaves the node's
value, its own subscriber list (the node not being among its own
inputs) and the worklist unchanged. -/
theorem C1_equal_value_noop :
    (∀ (V : Type) [DecidableEq V] (fuel : Nat) (w : World V) (e : Nat)
        (v : V) (r : Reactive V), w.reactive e = some r → r.data = v →
        sendSignal fuel w e v = some w) ∧
    (∀ (V : Type) [DecidableEq V] (derived : Nat) (cf : CalcFunction V)
        (w w1 : World V) (stack : List Nat) (v : V) (r : Reactive V),
        read_and_derive w derived cf.deriveFn cf.inputs = some (w1, some v) →
        w1.reactive derived = some r → r.data = v → derived ∉ cf.inputs →
        execute derived cf w stack = some (w1, stack) ∧
          w1.reactive derived = w.reactive derived) := by
  constructor
  · intro V _ fuel w e v r hr hv
    unfold sendSignal
    rw [hr]
    simp [hv]
  · intro V _ derived cf w w1 stack v r hrd hr hv hmem
    constructor
    · unfold execute
      rw [hrd]
      simp [hr, hv]
    · rw [read_and_derive_world hrd]
      exact subscribeInputs_reactive_of_not_mem cf.inputs derived w derived hmem

/-- Witness for C1 at concrete inputs: writing `false` over `false` on
entity 0 of `wOneSignal` returns the world unchanged, and recomputing
the derived node 1 of `wDiffPair` to the equal value `false` changes
neither its record nor the worklist. -/
theorem C1_equal_value_noop_witness :
    sendSignal 5 wOneSignal 0 false = some wOneSignal ∧
      (execute 1 ⟨[0], fun _ => false⟩ wDiffPair [] = some (wDiffPairSub, []) ∧
        wDiffPairSub.reactive 1 = wDiffPair.reactive 1) :=
  ⟨C1_equal_value_noop.1 Bool 5 wOneSignal 0 false ⟨false, []⟩ rfl rfl,
    C1_equal_value_noop.2 Bool 1 ⟨[0], fun _ => false⟩ wDiffPair wDiffPairSub
      [] false ⟨false, []⟩ rfl rfl rfl (by decide)⟩

/-- C3: whenever a recomputation produces a value unequal to the stored
one, the node's entire subscriber list is appended to the shared
worklist and its own subscriber list is reset to empty; and for every
other entity, subscriber-list entries appear only by the recomputing
node's own dependency query re-registering itself (each other record
keeps its value and either keeps its subscriber list or gets exactly
the recomputing node appended once). -/
theorem C3_change_detaches_subscribers :
    ∀ (V : Type) [DecidableEq V] (derived : Nat) (cf : CalcFunction V)
      (w w1 : World V) (stack : List Nat) (v : V) (r : Reactive V),
      read_and_derive w derived cf.deriveFn cf.inputs = some (w1, some v) →
      w1.reactive derived = some r → r.data ≠ v →
      execute derived cf w stack =
          some (w1.setReactive derived ⟨v, []⟩, stack ++ r.subscribers) ∧
        (w1.setReactive derived ⟨v, []⟩).reactive derived = some ⟨v, []⟩ ∧
        ∀ e r2, e ≠ derived →
          (w1.setReactive derived ⟨v, []⟩).reactive e = some r2 →
          ∃ r1, w.reactive e = some r1 ∧ r1.data = r2.data ∧
            (r2.subscribers = r1.subscribers ∨
              r2.subscribers = r1.subscribers ++ [derived]) := by
  intro V _ derived cf w w1 stack v r hrd hr hne
  refine ⟨?_, ?_, ?_⟩
  · unfold execute
    rw [hrd]
    simp [hr, hne]
  · simp [World.setReactive]
  · intro e r2 he h2
    simp only [World.setReactive, if_neg he] at h2
    rw [read_and_derive_world hrd] at h2
    exact subscribeInputs_subscribers cf.inputs derived w
      (read_and_derive_distinct hrd) e r2 h2

/-- Witness for C3 at concrete inputs: recomputing the derived node 1
of `wChange` (stored `false`, subscribers `[7]`) to `true` moves `[7]`
onto the worklist, empties its own subscriber list, and the input 0
merely gains the re-registered subscription. -/
theorem C3_change_detaches_subscribers_witness :
    execute 1 ⟨[0], fun _ => true⟩ wChange [] =
        some (wChangeSub.setReactive 1 ⟨true, []⟩, [7]) ∧
      (wChangeSub.setReactive 1 ⟨true, []⟩).reactive 1 = some ⟨true, []⟩ ∧
      (∃ r1, wChange.reactive 0 = some r1 ∧
        r1.data = (⟨false, [1]⟩ : Reactive Bool).data ∧
        ((⟨false, [1]⟩ : Reactive Bool).subscribers = r1.subscribers ∨
          (⟨false, [1]⟩ : Reactive Bool).subscribers =
            r1.subscribers ++ [1])) := by
  have h := C3_change_detaches_subscribers Bool 1 ⟨[0], fun _ => true⟩
    wChange wChangeSub [] true ⟨false, [7]⟩ rfl rfl (by decide)
  exact ⟨h.1, h.2.1, h.2.2 0 ⟨false, [1]⟩ (by decide) rfl⟩

/-- C5: a dependency query whose input list repeats an identifier
panics (the `get_many_entities_mut(...).unwrap()`), and so does
creating a derived node with such an input list — neither silently
succeeds with a single subscription. -/
theorem C5_duplicate_input_faults :
    (∀ (V : Type) [DecidableEq V] (w : World V) (reader : Nat)
        (f : List V → V) (inputs : List Nat), ¬ inputs.Nodup →
        read_and_derive w reader f inputs = none) ∧
    (∀ (V : Type) [DecidableEq V] (w : World V) (f : List V → V)
        (inputs : List Nat), ¬ inputs.Nodup → Calc.new w inputs f = none) := by
  refine ⟨fun V _ w reader f inputs h => read_and_derive_of_dup w reader f inputs h, ?_⟩
  intro V _ w f inputs h
  unfold Calc.new
  simp only [execute, read_and_derive_of_dup _ _ _ _ h]

/-- Witness for C5 at the concrete duplicated input list `[0, 0]`. -/
theorem C5_duplicate_input_faults_witness :
    read_and_derive wOneSignal 1 (fun _ => true) [0, 0] = none ∧
      Calc.new wOneSignal [0, 0] (fun _ => true) = none :=
  ⟨C5_duplicate_input_faults.1 Bool wOneSignal 1 (fun _ => true) [0, 0]
      (by decide),
    C5_duplicate_input_faults.2 Bool wOneSignal (fun _ => true) [0, 0]
      (by decide)⟩

/-- Counterexample to C6 as stated: in `wMissingRecord` the input
entity 0 is spawned but its `Reactive Bool` record is absent (the
wrong-type/missing-component case), yet recomputing the derived node 1
does not fault — it returns normally, leaving the world and the
worklist untouched (a silent no-op), contradicting "signals failure as
a fatal, unrecoverable configuration error". -/
theorem C6_missing_record_cex :
    wMissingRecord.reactive 0 = none ∧
      execute 1 ⟨[0], fun _ => true⟩ wMissingRecord [] =
        some (wMissingRecord, []) :=
  ⟨rfl, rfl⟩

/-- C6 (amended): an input identifier that is not a spawned entity (or
repeats) makes the query panic; but when the entity exists and only its
`Reactive` record is missing or of the wrong type, the query returns no
value and the recomputation is silently skipped (worklist unchanged,
already-made subscriptions retained) rather than faulting. -/
theorem C6_missing_record_amended :
    (∀ (V : Type) [DecidableEq V] (w : World V) (reader : Nat)
        (f : List V → V) (inputs : List Nat),
        inputs.all (fun i => i < w.next) = false →
        read_and_derive w reader f inputs = none) ∧
    (∀ (V : Type) [DecidableEq V] (derived : Nat) (cf : CalcFunction V)
        (w w1 : World V) (stack : List Nat),
        read_and_derive w derived cf.deriveFn cf.inputs = some (w1, none) →
        execute derived cf w stack = some (w1, stack)) := by
  constructor
  · intro V _ w reader f inputs h
    unfold read_and_derive
    simp [h]
  · intro V _ derived cf w w1 stack h
    unfold execute
    rw [h]

/-- Witness for the amended C6: querying the unspawned entity 5 in
`wOneSignal` panics, while recomputing node 1 of `wMissingRecord`
(whose input 0 lacks a record) is a silent no-op. -/
theorem C6_missing_record_amended_witness :
    read_and_derive wOneSignal 1 (fun _ => true) [5] = none ∧
      execute 1 ⟨[0], fun _ => true⟩ wMissingRecord [] =
        some (wMissingRecord, []) :=
  ⟨C6_missing_record_amended.1 Bool wOneSignal 1 (fun _ => true) [5]
      (by decide),
    C6_missing_record_amended.2 Bool 1 ⟨[0], fun _ => true⟩ wMissingRecord
      wMissingRecord [] rfl⟩

/-- C10: `ReactiveContext.read` panics (returns `none`, the modelled
`unwrap` failure) exactly when the handle's record is absent from the
store or stored at a different value type, and otherwise returns the
stored value; being a plain lookup it mutates nothing (it is a function
of the world returning only the value). -/
theorem C10_read_panics_iff_absent :
    ∀ (V : Type) (w : World V) (e : Nat),
      (ReactiveContext.read w e = none ↔ w.reactive e = none) ∧
      ∀ r, w.reactive e = some r → ReactiveContext.read w e = some r.data := by
  intro V w e
  constructor
  · unfold ReactiveContext.read
    cases h : w.reactive e <;> simp
  · intro r hr
    unfold ReactiveContext.read
    rw [hr]
    rfl

/-- Witness for C10 at concrete inputs: reading entity 0 of
`wOneSignal` yields its stored value, and reading the recordless
entity 0 of `wMissingRecord` panics. -/
theorem C10_read_panics_iff_absent_witness :
    ReactiveContext.read wOneSignal 0 = some false ∧
      ReactiveContext.read wMissingRecord 0 = none :=
  ⟨(C10_read_panics_iff_absent Bool wOneSignal 0).2 ⟨false, []⟩ rfl,
    (C10_read_panics_iff_absent Bool wMissingRecord 0).1.mpr rfl⟩

/-! ## The lock scenario (`test::basic` in `lib.rs`) -/

/-- The lock derivation: unlocked iff both buttons are active
(`Lock::two_buttons` with the `Button`/`Lock` wrappers erased to their
`bool` payloads, which is all `PartialEq` compares). -/
def lockFn : List Bool → Bool := fun l => l.headD false && (l.drop 1).headD false

/-- Signals `b1` (entity 0) and `b2` (entity 1), both `false`, and the
derived lock `b1 && b2` (entity 2). -/
def lockWorld : Option (World Bool) :=
  (Calc.new (Signal.new (Signal.new (World.empty Bool) false).1 false).1
      [0, 1] lockFn).map (·.1)

/-- The lock world after `write(b1, true)`. -/
def lockAfterB1 : Option (World Bool) :=
  lockWorld.bind (fun w => sendSignal 20 w 0 true)

/-- The lock world after `write(b1, true)` then `write(b2, true)`. -/
def lockAfterB2 : Option (World Bool) :=
  lockAfterB1.bind (fun w => sendSignal 20 w 1 true)

/-- C7: in the lock scenario, `read(lock)` is `false` after creation,
still `false` after `write(b1, true)`, and `true` after
`write(b2, true)`; 1000 further writes of `true` to `b1` leave the
whole world — every node's value and subscriber list, hence any
downstream recomputation state — literally unchanged, each being a
diffed no-op. -/
theorem C7_lock_scenario :
    lockWorld.bind (fun w => ReactiveContext.read w 2) = some false ∧
      lockAfterB1.bind (fun w => ReactiveContext.read w 2) = some false ∧
      lockAfterB2.bind (fun w => ReactiveContext.read w 2) = some true ∧
      (fun o => o.bind (fun w => sendSignal 20 w 0 true))^[1000] lockAfterB2 =
        lockAfterB2 := by
  refine ⟨by decide, by decide, by decide, ?_⟩
  exact Function.iterate_fixed rfl 1000

/-! ## The nested-derive scenario (`test::nested_derive` in `lib.rs`) -/

/-- Numeric addition of the first two inputs.  The test's `f32` values
1.0, 10.0, 100.0 and their sums are all exactly representable, so the
arithmetic is embedded in `Int`. -/
def addFn : List Int → Int := fun l => l.headD 0 + (l.drop 1).headD 0

/-- Sources `n1 = 1` (entity 0), `n2 = 10` (entity 1), `n3 = 100`
(entity 2); derived `d1 = n1 + n2` (entity 3), `d2 = n3 + n2`
(entity 4), `d3 = d1 + d2` (entity 5). -/
def nestedWorld : Option (World Int) :=
  (Calc.new
      (Signal.new (Signal.new (Signal.new (World.empty Int) 1).1 10).1 100).1
      [0, 1] addFn).bind fun p1 =>
  (Calc.new p1.1 [2, 1] addFn).bind fun p2 =>
  (Calc.new p2.1 [3, 4] addFn).map (·.1)

/-- C8: immediately after construction, with no writes, the derived
nodes already hold their computed values (each was computed once at
creation): `d1 = 11`, `d2 = 110` and `read(d3) = 121`. -/
theorem C8_nested_derive :
    nestedWorld.bind (fun w => ReactiveContext.read w 3) = some 11 ∧
      nestedWorld.bind (fun w => ReactiveContext.read w 4) = some 110 ∧
      nestedWorld.bind (fun w => ReactiveContext.read w 5) = some 121 := by
  refine ⟨by decide, by decide, by decide⟩

/-! ## Arity and heterogeneity (`impl_CalcQuery`, `test::many_types`) -/

/-- The heterogeneous value universe of `test::many_types`: three
distinct wrapper types `Foo`, `Bar`, `Baz` around a number (the test's
`f32` payloads 1.0 and 2.0 are exact, embedded in `Int`). -/
inductive MTVal where
  | foo (q : Int)
  | bar (q : Int)
  | baz (q : Int)
deriving DecidableEq

/-- The heterogeneous derivation `|(foo, bar)| Baz(foo.0 + bar.0)`. -/
def mtFn : List MTVal → MTVal := fun l =>
  match l with
  | [MTVal.foo a, MTVal.bar b] => MTVal.baz (a + b)
  | _ => MTVal.baz 0

/-- Signals `foo = Foo 1` (entity 0) and `bar = Bar 1` (entity 1), and
the derived `baz` (entity 2) combining the two differently-typed
inputs. -/
def mtWorld : Option (World MTVal) :=
  (Calc.new (Signal.new (Signal.new (World.empty MTVal) (MTVal.foo 1)).1
      (MTVal.bar 1)).1 [0, 1] mtFn).map (·.1)

/-- Counterexample to C9 as stated: the dependency query is *not*
available at every arity from 1 upward — the source instantiates
`CalcQuery` only for tuple arities 1 through 32
(`all_tuples_with_size!(impl_CalcQuery, 1, 32, T, s)`), so arity 33 is
a positive arity with no implementation. -/
theorem C9_arity_cex : 1 ≤ 33 ∧ 33 ∉ calcQueryArities := by decide

/-- C9 (amended): the dependency query is implemented exactly for the
input-tuple arities 1 through 32, and the inputs within one tuple may
have pairwise different value types (the `many_types` scenario combines
a `Foo`-typed and a `Bar`-typed input into a `Baz`-typed derived
node). -/
theorem C9_arity_heterogeneity_amended :
    (∀ n, n ∈ calcQueryArities ↔ 1 ≤ n ∧ n ≤ 32) ∧
      mtWorld.bind (fun w => ReactiveContext.read w 2) =
        some (MTVal.baz 2) := by
  constructor
  · intro n
    rw [calcQueryArities, List.mem_range'_1]
    omega
  · decide

/-- Witness for the amended C9 at the concrete arity 32. -/
theorem C9_arity_heterogeneity_amended_witness :
    32 ∈ calcQueryArities ∧
      mtWorld.bind (fun w => ReactiveContext.read w 2) =
        some (MTVal.baz 2) :=
  ⟨(C9_arity_heterogeneity_amended.1 32).mpr (by decide),
    C9_arity_heterogeneity_amended.2⟩

/-! ## Conditional use of an input (the auto-unsubscribe scenario) -/

/-- The conditional derivation of a node `D` over inputs `(X, Y)`:
the value of `X` is used only when `Y` is true (`fn(x, y) = if y then x
else false`).  The dependency query still reads and subscribes both
inputs unconditionally. -/
def condFn : List Bool → Bool := fun l =>
  if (l.drop 1).headD false then l.headD false else false

/-- Signals `Y` (entity 0, initially `true`) and `X` (entity 1,
initially `false`); derived `D` (entity 2) over inputs `[X, Y]`; a
further derived `E` (entity 3) downstream of `D`. -/
def condWorld : Option (World Bool) :=
  (Calc.new (Signal.new (Signal.new (World.empty Bool) true).1 false).1
      [1, 0] condFn).bind fun pD =>
  (Calc.new pD.1 [2] (fun l => l.headD false)).map (·.1)

/-- The conditional world after `write(Y, false)`. -/
def condAfterYFalse : Option (World Bool) :=
  condWorld.bind (fun w => sendSignal 20 w 0 false)

/-- The conditional world after `write(Y, false)` then
`write(X, true)` — a write that changes `X`. -/
def condAfterXTrue : Option (World Bool) :=
  condAfterYFalse.bind (fun w => sendSignal 20 w 1 true)

/-- The subscriber list of a node, observed through an optional world. -/
def subscribersOf (o : Option (World V)) (e : Nat) : Option (List Nat) :=
  o.bind fun w => (w.reactive e).map Reactive.subscribers

/-! ## The diamond scenario -/

/-- A unary derivation lifted to the value-list interface of the
embedding (`d` is an arbitrary default, never read on the arity the
node is created with). -/
def lift1 (d : V) (f : V → V) : List V → V := fun l => f (l.headD d)

/-- A binary derivation lifted to the value-list interface. -/
def lift2 (d : V) (g : V → V → V) : List V → V :=
  fun l => g (l.headD d) ((l.drop 1).headD d)

/-- The diamond graph over an arbitrary value type and arbitrary
derivations: source `S` (entity 0, initial value `s0`), derived
`A = fA(S)` (entity 1), derived `B = fB(S)` (entity 2), derived
`C = fC(A, B)` (entity 3). -/
def diamond [DecidableEq V] (s0 : V) (fA fB : V → V) (fC : V → V → V) :
    Option (World V) :=
  (Calc.new (Signal.new (World.empty V) s0).1 [0] (lift1 s0 fA)).bind fun pA =>
  (Calc.new pA.1 [0] (lift1 s0 fB)).bind fun pB =>
  (Calc.new pB.1 [1, 2] (lift2 s0 fC)).map (·.1)

/-- Counterexample to C4 as stated: after `Y` becomes false, `D`
(entity 2) is *still* a subscriber of `X` (entity 1) — `X`'s subscriber
list is `[2, 2]` — because every recomputation's dependency query
re-subscribes `D` to each input of its fixed tuple regardless of the
derivation's conditional use of `X`. -/
theorem C4_conditional_cex :
    subscribersOf condAfterYFalse 1 = some [2, 2] ∧
      (2 ∈ [2, 2]) := by
  refine ⟨by decide, by decide⟩

/-- C4 (amended): after `Y` becomes false, `D` remains a subscriber of
`X`, and a write that changes `X` still recomputes `D` (each
recomputation re-subscribes `D` to `Y` as well, so `Y`'s subscriber
list grows from `[2]` to `[2, 2, 2]` across the two `D` recomputations
the write triggers); but `D`'s recomputed value is unchanged, so
nothing propagates past `D`: `D`'s own subscriber list (holding the
downstream `E`) is never detached and `E` keeps its value. -/
theorem C4_conditional_amended :
    subscribersOf condAfterYFalse 1 = some [2, 2] ∧
      subscribersOf condAfterYFalse 0 = some [2] ∧
      subscribersOf condAfterXTrue 0 = some [2, 2, 2] ∧
      subscribersOf condAfterXTrue 2 = some [3] ∧
      condAfterXTrue.bind (fun w => ReactiveContext.read w 2) = some false ∧
      condAfterXTrue.bind (fun w => ReactiveContext.read w 3) = some false := by
  refine ⟨by decide, by decide, by decide, by decide, by decide, by decide⟩

set_option maxHeartbeats 2000000 in
/-- C2: in any diamond — a source `S`, derived `A` and `B` each
depending on `S`, and derived `C` depending on both — over an arbitrary
value type and arbitrary derivation functions, writing a value unequal
to `S`'s current one terminates the propagation episode (within the
ample fuel 10) with `C`'s stored value equal to `fC` applied to the
updated values `fA s1` and `fB s1` of `A` and `B`, in every case of
which intermediate recomputation did or did not change a value. -/
theorem C2_diamond_convergence :
    ∀ (V : Type) [DecidableEq V] (s0 s1 : V) (fA fB : V → V)
      (fC : V → V → V), s1 ≠ s0 →
      (diamond s0 fA fB fC).bind (fun w => (sendSignal 10 w 0 s1).bind
          (fun w1 => ReactiveContext.read w1 3)) =
        some (fC (fA s1) (fB s1)) := by
  intro V _ s0 s1 fA fB fC hne
  have hne1 : ¬ (s0 = s1) := fun h => hne h.symm
  by_cases hB : fB s0 = fB s1
  · by_cases hA : fA s0 = fA s1
    · simp [diamond, Calc.new, Signal.new, World.empty, execute, read_and_derive,
      subscribeInputs, readInputs, World.setReactive, World.setCalcFn,
      Reactive.subscribe, distinctB, lift1, lift2, sendSignal, propagate, popTop,
      ReactiveContext.read, hne1, hA, hB]
    · by_cases hC : fC (fA s0) (fB s1) = fC (fA s1) (fB s1) <;>
      simp [diamond, Calc.new, Signal.new, World.empty, execute, read_and_derive,
      subscribeInputs, readInputs, World.setReactive, World.setCalcFn,
      Reactive.subscribe, distinctB, lift1, lift2, sendSignal, propagate, popTop,
      ReactiveContext.read, hne1, hA, hB, hC]
  · by_cases hA : fA s0 = fA s1
    · by_cases hC : fC (fA s1) (fB s0) = fC (fA s1) (fB s1) <;>
      simp [diamond, Calc.new, Signal.new, World.empty, execute, read_and_derive,
      subscribeInputs, readInputs, World.setReactive, World.setCalcFn,
      Reactive.subscribe, distinctB, lift1, lift2, sendSignal, propagate, popTop,
      ReactiveContext.read, hne1, hA, hB, hC]
    · by_cases hC : fC (fA s0) (fB s0) = fC (fA s0) (fB s1)
      · by_cases hD : fC (fA s0) (fB s1) = fC (fA s1) (fB s1) <;>
        simp [diamond, Calc.new, Signal.new, World.empty, execute, read_and_derive,
        subscribeInputs, readInputs, World.setReactive, World.setCalcFn,
        Reactive.subscribe, distinctB, lift1, lift2, sendSignal, propagate, popTop,
        ReactiveContext.read, hne1, hA, hB, hC, hD]
      · by_cases hD : fC (fA s0) (fB s1) = fC (fA s1) (fB s1)
        · have hC2 : ¬ fC (fA s0) (fB s0) = fC (fA s1) (fB s1) :=
            fun h => hC (h.trans hD.symm)
          simp [diamond, Calc.new, Signal.new, World.empty, execute, read_and_derive,
          subscribeInputs, readInputs, World.setReactive, World.setCalcFn,
          Reactive.subscribe, distinctB, lift1, lift2, sendSignal, propagate, popTop,
          ReactiveContext.read, hne1, hA, hB, hC, hD, hC2]
        · simp [diamond, Calc.new, Signal.new, World.empty, execute, read_and_derive,
          subscribeInputs, readInputs, World.setReactive, World.setCalcFn,
          Reactive.subscribe, distinctB, lift1, lift2, sendSignal, propagate, popTop,
          ReactiveContext.read, hne1, hA, hB, hC, hD]

/-- Witness for C2 at concrete inputs: the diamond over `Int` with
`s0 = 0`, `fA = (+1)`, `fB = (+2)`, `fC = (+)` and the write `s1 = 1`,
ending with `C = (1 + 1) + (1 + 2) = 5`. -/
theorem C2_diamond_convergence_witness :
    (1 : Int) ≠ 0 ∧
      (diamond (0 : Int) (fun x => x + 1) (fun x => x + 2)
          (fun a b => a + b)).bind (fun w => (sendSignal 10 w 0 1).bind
          (fun w1 => ReactiveContext.read w1 3)) = some 5 :=
  ⟨by decide,
    C2_diamond_convergence Int 0 1 (fun x => x + 1) (fun x => x + 2)
      (fun a b => a + b) (by decide)⟩

end BevyRx
